import Mathlib

/-!
Verification of the `amst` channel library (amsterdam.h / amsterdam.cpp).

The core object is `amst::detail::ChannelBase`: an intrusive singly linked
list of nodes (`first_`/`last_` raw pointers) together with a live-sender
count `tx_count_` and a live-receiver count `rx_count_` (both `std::size_t`,
member-initialized to 1), one mutex and one condition variable.  All
operations run under the single mutex, so each critical section is atomic;
we model the program as a sequential state machine whose steps are the
locked bodies of the operations.

Modelling decisions, each tied to the source:
* The chain of nodes reachable from `first_` is represented by the list of
  their elements, in link order (`first : List α`).  `first_ == nullptr`
  holds exactly when this list is empty.  The typed wrapper
  `detail::Channel<T>` boxes an element of type `T` into a node and unboxes
  it on dequeue, so a node is represented by the element it carries.
* `last_ == nullptr` is tracked separately as `lastNull : Bool`, because
  the code assigns `first_` and `last_` independently (`push` writes
  `first_` only when `last_` was null; `locked_dequeue` nulls `last_` only
  when the new `first_` is null).  The append through `last_->next` is
  represented as appending to the end of the chain, which is what it does
  whenever `last_` is the final node of the chain — the list-shape
  invariant proved below.
* `tx_count_` / `rx_count_` are `std::size_t`, ranging over `[0, 2^64)`;
  `++` and `--` act modulo 2^64, written branchwise: the increment wraps
  `2^64 - 1` to `0` and the decrement wraps `0` to `2^64 - 1`.
* `throw SendError` / `throw RecvError` become `Except ChannelError`.  Both
  throws happen before any mutation, so the erroring operations leave the
  state unchanged.
* `assert(...)` conditions in the source (`assert(tx_count_ > 0)` in
  `connect_tx`/`disconnect_tx`, `assert(rx_count_ > 0)` in
  `connect_rx`/`disconnect_rx`) are preconditions: an execution violating
  one aborts.  `validOp` records them, and `ValidFrom` restricts traces to
  assert-respecting ones.  `pop` waits on the condition variable until
  `first_ || tx_count_ == 0`; its dequeue step therefore only runs in
  states satisfying that predicate, which `validOp` records as its
  enabledness condition.  `cv_.notify_one()`/`notify_all()` have no effect
  on the modelled state.
-/

deriving instance DecidableEq for Except

namespace Amst

/-- `std::size_t` arithmetic is modulo `2^64` (the numeral below is
`2^64`, written out so that it is a literal). -/
def size_t_mod : Nat := 18446744073709551616

/-- The two exception types of amsterdam.h: `SendError` ("all receivers
hung up") and `RecvError` ("all senders hung up"). -/
inductive ChannelError where
  | sendError
  | recvError
deriving DecidableEq, Repr

/-- State of `amst::detail::ChannelBase` (amsterdam.h, private members):
`first_`/`last_` head and tail of the intrusive list, `tx_count_` and
`rx_count_` live-handle counts.  `first` is the chain of elements linked
from `first_` (empty iff `first_ == nullptr`); `lastNull` is whether
`last_ == nullptr`.  The mutex and condition variable have no state beyond
serializing the operations. -/
structure ChannelBase (α : Type) where
  first : List α
  lastNull : Bool
  tx_count : Nat
  rx_count : Nat
deriving DecidableEq, Repr

/-- A fresh `ChannelBase` per its member initializers:
`first_ = nullptr`, `last_ = nullptr`, `tx_count_ = 1`, `rx_count_ = 1`.
`amst::channel<T>()` default-constructs the shared `detail::Channel<T>`
holding this state; the temporary copies made while returning the pair call
`connect_*` then `disconnect_*`, which cancel, so the returned pair
observes exactly this state. -/
def channelInit (α : Type) : ChannelBase α :=
  { first := [], lastNull := true, tx_count := 1, rx_count := 1 }

/-- `ChannelBase::push` (amsterdam.cpp): under the lock, throws
`SendError` if `rx_count_ == 0`; otherwise links the node after `last_`
(or sets `first_` when `last_` is null) and makes it the new `last_`.
Returns the new state, or the error with the state untouched (the throw
precedes every mutation). -/
def ChannelBase.push (s : ChannelBase α) (a : α) :
    Except ChannelError (ChannelBase α) :=
  if s.rx_count = 0 then
    .error .sendError
  else
    .ok { s with
          first := if s.lastNull then [a] else s.first ++ [a],
          lastNull := false }

/-- `ChannelBase::locked_dequeue` (amsterdam.cpp): if `first_` is null,
throws `RecvError` when `tx_count_ == 0` and otherwise returns `nullptr`
(no value) leaving the state unchanged; if `first_` is non-null, unlinks
the head node (`first_ = first_->next`), nulls `last_` when the list
became empty, and returns the head's element. -/
def ChannelBase.locked_dequeue (s : ChannelBase α) :
    Except ChannelError (Option α × ChannelBase α) :=
  match s.first with
  | [] =>
      if s.tx_count = 0 then
        .error .recvError
      else
        .ok (none, s)
  | x :: rest =>
      .ok (some x,
           { s with
             first := rest,
             lastNull := if rest.isEmpty then true else s.lastNull })

/-- `ChannelBase::try_pop` (amsterdam.cpp): takes the lock and delegates
to `locked_dequeue`. -/
def ChannelBase.try_pop (s : ChannelBase α) :
    Except ChannelError (Option α × ChannelBase α) :=
  s.locked_dequeue

/-- The predicate `ChannelBase::pop` waits for on the condition variable:
`first_ || tx_count_ == 0`.  Only once it holds does `pop` run
`locked_dequeue` (and `assert(node)`). -/
def ChannelBase.popReady (s : ChannelBase α) : Prop :=
  s.first ≠ [] ∨ s.tx_count = 0

instance [DecidableEq α] (s : ChannelBase α) : Decidable s.popReady :=
  inferInstanceAs (Decidable (_ ∨ _))

/-- `ChannelBase::connect_tx`: `++tx_count_` under the lock.
`tx_count_` is a `std::size_t`, ranging over `[0, 2^64)`: the increment
wraps `2^64 - 1` to `0` and is plain `+ 1` below that.  Precondition
`assert(tx_count_ > 0)` is recorded in `validOp`. -/
def ChannelBase.connect_tx (s : ChannelBase α) : ChannelBase α :=
  { s with tx_count :=
      if s.tx_count = size_t_mod - 1 then 0 else s.tx_count + 1 }

/-- `ChannelBase::connect_rx`: `++rx_count_` under the lock (wrapping
`std::size_t` increment, as in `connect_tx`). -/
def ChannelBase.connect_rx (s : ChannelBase α) : ChannelBase α :=
  { s with rx_count :=
      if s.rx_count = size_t_mod - 1 then 0 else s.rx_count + 1 }

/-- `ChannelBase::disconnect_tx`: `--tx_count_` under the lock.  The
`std::size_t` decrement wraps `0` to `2^64 - 1` and is plain `- 1`
otherwise; with the asserted precondition `tx_count_ > 0` it is an exact
decrement.  Then `cv_.notify_all()` when the count reached zero (no state
effect in the model). -/
def ChannelBase.disconnect_tx (s : ChannelBase α) : ChannelBase α :=
  { s with tx_count :=
      if s.tx_count = 0 then size_t_mod - 1 else s.tx_count - 1 }

/-- `ChannelBase::disconnect_rx`: `--rx_count_` under the lock (wrapping
`std::size_t` decrement, as in `disconnect_tx`). -/
def ChannelBase.disconnect_rx (s : ChannelBase α) : ChannelBase α :=
  { s with rx_count :=
      if s.rx_count = 0 then size_t_mod - 1 else s.rx_count - 1 }

/-- One locked operation on a channel, to build traces with. -/
inductive Op (α : Type) where
  | push (a : α)
  | tryPop
  | pop
  | connectTx
  | connectRx
  | disconnectTx
  | disconnectRx
deriving DecidableEq, Repr

/-- The state after one operation.  Erroring `push`/`try_pop`/`pop` throw
before mutating anything, so they leave the state unchanged; `pop` mutates
exactly as `locked_dequeue` once its wait predicate holds. -/
def applyOp (s : ChannelBase α) : Op α → ChannelBase α
  | .push a =>
      match s.push a with
      | .ok s' => s'
      | .error _ => s
  | .tryPop =>
      match s.locked_dequeue with
      | .ok (_, s') => s'
      | .error _ => s
  | .pop =>
      match s.locked_dequeue with
      | .ok (_, s') => s'
      | .error _ => s
  | .connectTx => s.connect_tx
  | .connectRx => s.connect_rx
  | .disconnectTx => s.disconnect_tx
  | .disconnectRx => s.disconnect_rx

/-- Enabledness of an operation in a state: the `assert` preconditions of
`connect_*`/`disconnect_*` (each asserts its count is positive — a clone
or drop only happens through a live handle), and `pop`'s condition-variable
wait predicate.  `push` (whose `assert(node)` always holds for a freshly
boxed node) and `try_pop` are always enabled. -/
def validOp (s : ChannelBase α) : Op α → Prop
  | .push _ => True
  | .tryPop => True
  | .pop => s.popReady
  | .connectTx => 0 < s.tx_count
  | .connectRx => 0 < s.rx_count
  | .disconnectTx => 0 < s.tx_count
  | .disconnectRx => 0 < s.rx_count

instance [DecidableEq α] (s : ChannelBase α) (op : Op α) :
    Decidable (validOp s op) := by
  cases op <;> simp only [validOp] <;> infer_instance

/-- Run a list of operations from a state. -/
def run (s : ChannelBase α) : List (Op α) → ChannelBase α
  | [] => s
  | op :: rest => run (applyOp s op) rest

/-- A trace is valid from `s` when every operation is enabled (its
`assert`s hold, and `pop` only fires once its wait predicate holds) in the
state where it runs. -/
def ValidFrom (s : ChannelBase α) : List (Op α) → Prop
  | [] => True
  | op :: rest => validOp s op ∧ ValidFrom (applyOp s op) rest

instance [DecidableEq α] (s : ChannelBase α) (ops : List (Op α)) :
    Decidable (ValidFrom s ops) := by
  induction ops generalizing s with
  | nil => exact inferInstanceAs (Decidable True)
  | cons op rest ih =>
      simp only [ValidFrom]
      exact @instDecidableAnd _ _ _ (ih _)

/-- A `Sender<T>` handle (amsterdam.h): holds `channel_`, a shared pointer
to a `detail::Channel<T>`.  Shared-pointer identity is modelled as a `Nat`
naming the channel; a world `Nat → ChannelBase α` maps each identity to
its state. -/
structure Sender where
  channel : Nat
deriving DecidableEq, Repr

/-- A `Receiver<T>` handle (amsterdam.h): holds `channel_`, a shared
pointer to a `detail::Channel<T>`. -/
structure Receiver where
  channel : Nat
deriving DecidableEq, Repr

/-- `Sender::operator=` (amsterdam.h): if `channel_ == other.channel_`,
returns immediately with nothing changed (identity guard); otherwise calls
`disconnect_tx()` on the current channel, repoints `channel_` at
`other.channel_`, and calls `connect_tx()` on it.  Returns the updated
world of channel states and the updated left-hand handle. -/
def Sender.assign (w : Nat → ChannelBase α) (dst src : Sender) :
    (Nat → ChannelBase α) × Sender :=
  if dst.channel = src.channel then
    (w, dst)
  else
    let w1 := Function.update w dst.channel (w dst.channel).disconnect_tx
    let w2 := Function.update w1 src.channel (w1 src.channel).connect_tx
    (w2, { channel := src.channel })

/-- `Receiver::operator=` (amsterdam.h): identity guard, else
`disconnect_rx()` on the old channel, repoint, `connect_rx()` on the
new one. -/
def Receiver.assign (w : Nat → ChannelBase α) (dst src : Receiver) :
    (Nat → ChannelBase α) × Receiver :=
  if dst.channel = src.channel then
    (w, dst)
  else
    let w1 := Function.update w dst.channel (w dst.channel).disconnect_rx
    let w2 := Function.update w1 src.channel (w1 src.channel).connect_rx
    (w2, { channel := src.channel })

/-- The list-shape invariant of the intrusive list: `last_` is null
exactly when the chain from `first_` is empty (`first_` null iff the chain
is empty holds by representation). -/
def listShapeInv (s : ChannelBase α) : Prop :=
  s.lastNull = true ↔ s.first = []

instance [DecidableEq α] (s : ChannelBase α) : Decidable (listShapeInv s) :=
  inferInstanceAs (Decidable (_ ↔ _))

/-! ### Arithmetic helpers for `std::size_t` increments and decrements -/

theorem size_t_mod_pos : 0 < size_t_mod := by
  norm_num [size_t_mod]

theorem size_t_inc_eq {c : Nat} (h : c + 1 < size_t_mod) :
    (if c = size_t_mod - 1 then 0 else c + 1) = c + 1 :=
  if_neg (by have := size_t_mod_pos; omega)

theorem size_t_dec_eq {c : Nat} (h0 : 0 < c) (h1 : c < size_t_mod) :
    (if c = 0 then size_t_mod - 1 else c - 1) = c - 1 :=
  if_neg (by omega)

/-- C1: FIFO order — a successful `push` appends its element at the tail
of the chain, a successful dequeue (`try_pop`, and `pop` via
`locked_dequeue`) removes and returns the head of the chain, so each
successful pop returns the least-recently enqueued value still queued; in
particular pushing `a` then `b` into a fresh channel and popping twice
yields `a` then `b` (the spec's 5 then 10). -/
theorem amst_C1_fifo_order {α : Type} (s : ChannelBase α) (a b : α)
    (hinv : listShapeInv s) :
    (∀ s', s.push a = Except.ok s' → s'.first = s.first ++ [a]) ∧
    (∀ x rest, s.first = x :: rest →
        ∃ s', s.try_pop = Except.ok (some x, s') ∧ s'.first = rest) ∧
    (∃ s1 s2 s3 s4, (channelInit α).push a = Except.ok s1 ∧
        s1.push b = Except.ok s2 ∧
        s2.try_pop = Except.ok (some a, s3) ∧
        s3.try_pop = Except.ok (some b, s4) ∧ s4.first = []) := by
  refine ⟨?_, ?_, ?_⟩
  · intro s' h
    unfold ChannelBase.push at h
    split at h
    · simp at h
    · cases h
      by_cases hl : s.lastNull = true
      · have hfirst : s.first = [] := hinv.mp hl
        simp [hl, hfirst]
      · simp [hl]
  · intro x rest hx
    refine ⟨{ s with first := rest, lastNull := rest.isEmpty || s.lastNull }, ?_, rfl⟩
    simp [ChannelBase.try_pop, ChannelBase.locked_dequeue, hx]
  · refine ⟨{ first := [a], lastNull := false, tx_count := 1, rx_count := 1 }, ?_⟩
    refine ⟨{ first := [a, b], lastNull := false, tx_count := 1, rx_count := 1 }, ?_⟩
    refine ⟨{ first := [b], lastNull := false, tx_count := 1, rx_count := 1 }, ?_⟩
    refine ⟨{ first := [], lastNull := true, tx_count := 1, rx_count := 1 }, ?_⟩
    exact ⟨rfl, rfl, rfl, rfl, rfl⟩

theorem amst_C1_fifo_order_witness :
    ∃ s', ChannelBase.try_pop
        { first := [5, 10], lastNull := false, tx_count := 1, rx_count := 1 }
      = Except.ok (some 5, s') ∧ s'.first = [10] :=
  (amst_C1_fifo_order
      { first := [5, 10], lastNull := false, tx_count := 1, rx_count := 1 }
      5 10 (by decide)).2.1 5 [10] rfl

set_option maxRecDepth 4000 in
/-- C2: drain-then-fail on sender hang-up — in any state with sender
count 0, a dequeue on a non-empty queue still returns the buffered head
(leaving the rest, sender count still 0), and a dequeue on an empty queue
throws `RecvError`; concretely, pushing `a` into a fresh channel and
dropping its only sender leaves a state where the first dequeue returns
`a` and the second throws `RecvError` (both dequeues are enabled for the
blocking `pop`, since its wait predicate holds when the sender count
is 0). -/
theorem amst_C2_drain_then_fail {α : Type} (s : ChannelBase α) (a : α)
    (h0 : s.tx_count = 0) :
    (∀ x rest, s.first = x :: rest →
        ∃ s', s.try_pop = Except.ok (some x, s') ∧ s'.first = rest ∧
          s'.tx_count = 0) ∧
    (s.first = [] → s.try_pop = Except.error ChannelError.recvError) ∧
    (∃ s1 s3, (channelInit α).push a = Except.ok s1 ∧
        (s1.disconnect_tx).tx_count = 0 ∧
        (s1.disconnect_tx).popReady ∧
        (s1.disconnect_tx).locked_dequeue = Except.ok (some a, s3) ∧
        s3.popReady ∧
        s3.locked_dequeue = Except.error ChannelError.recvError) := by
  refine ⟨?_, ?_, ?_⟩
  · intro x rest hx
    refine ⟨{ s with first := rest, lastNull := rest.isEmpty || s.lastNull }, ?_, rfl, h0⟩
    simp [ChannelBase.try_pop, ChannelBase.locked_dequeue, hx]
  · intro hx
    simp [ChannelBase.try_pop, ChannelBase.locked_dequeue, hx, h0]
  · refine ⟨{ first := [a], lastNull := false, tx_count := 1, rx_count := 1 }, ?_⟩
    refine ⟨{ first := [], lastNull := true, tx_count := 0, rx_count := 1 }, ?_⟩
    exact ⟨rfl, rfl, Or.inr rfl, rfl, Or.inr rfl, rfl⟩

theorem amst_C2_drain_then_fail_witness :
    ChannelBase.try_pop
        { first := ([] : List Nat), lastNull := true, tx_count := 0,
          rx_count := 1 }
      = Except.error ChannelError.recvError :=
  (amst_C2_drain_then_fail
      { first := ([] : List Nat), lastNull := true, tx_count := 0,
        rx_count := 1 }
      7 rfl).2.1 rfl

/-- C3: `push` throws `SendError` exactly when the receiver count is 0 at
the call; on the throwing path the whole state (queue contents and both
live counts) is unchanged, and on the non-throwing path the element is
appended at the tail (the chain grows by exactly one, `last_` becomes
non-null) while both counts are unchanged. -/
theorem amst_C3_push_send_error {α : Type} (s : ChannelBase α) (a : α)
    (hinv : listShapeInv s) :
    ((∃ e, s.push a = Except.error e) ↔ s.rx_count = 0) ∧
    (s.rx_count = 0 → s.push a = Except.error ChannelError.sendError ∧
        applyOp s (Op.push a) = s) ∧
    (∀ s', s.push a = Except.ok s' →
        s'.first = s.first ++ [a] ∧
        s'.first.length = s.first.length + 1 ∧
        s'.lastNull = false ∧
        s'.tx_count = s.tx_count ∧ s'.rx_count = s.rx_count) := by
  refine ⟨?_, ?_, ?_⟩
  · constructor
    · rintro ⟨e, he⟩
      by_contra hrx
      simp [ChannelBase.push, hrx] at he
    · intro hrx
      exact ⟨ChannelError.sendError, by simp [ChannelBase.push, hrx]⟩
  · intro hrx
    refine ⟨by simp [ChannelBase.push, hrx], ?_⟩
    simp [applyOp, ChannelBase.push, hrx]
  · intro s' h
    unfold ChannelBase.push at h
    split at h
    · simp at h
    · cases h
      by_cases hl : s.lastNull = true
      · have hfirst : s.first = [] := hinv.mp hl
        simp [hl, hfirst]
      · simp [hl]

theorem amst_C3_push_send_error_witness :
    ChannelBase.push
        { first := [3], lastNull := false, tx_count := 1, rx_count := 0 }
        (4 : Nat)
      = Except.error ChannelError.sendError ∧
    applyOp
        { first := [3], lastNull := false, tx_count := 1, rx_count := 0 }
        (Op.push (4 : Nat))
      = { first := [3], lastNull := false, tx_count := 1, rx_count := 0 } :=
  (amst_C3_push_send_error
      { first := [3], lastNull := false, tx_count := 1, rx_count := 0 }
      4 (by decide)).2.1 rfl

/-- C4: `try_pop` trichotomy — on a non-empty queue it returns the head;
on an empty queue with live senders it returns the no-value result with
the state unchanged; and it throws `RecvError` exactly when the queue is
empty and the sender count is 0. -/
theorem amst_C4_try_pop_trichotomy {α : Type} (s : ChannelBase α) :
    (∀ x rest, s.first = x :: rest →
        ∃ s', s.try_pop = Except.ok (some x, s') ∧ s'.first = rest) ∧
    (s.first = [] → 0 < s.tx_count → s.try_pop = Except.ok (none, s)) ∧
    (s.try_pop = Except.error ChannelError.recvError ↔
        s.first = [] ∧ s.tx_count = 0) := by
  refine ⟨?_, ?_, ?_⟩
  · intro x rest hx
    refine ⟨{ s with first := rest, lastNull := rest.isEmpty || s.lastNull }, ?_, rfl⟩
    simp [ChannelBase.try_pop, ChannelBase.locked_dequeue, hx]
  · intro hx htx
    have hne : ¬ s.tx_count = 0 := by omega
    simp [ChannelBase.try_pop, ChannelBase.locked_dequeue, hx, hne]
  · constructor
    · intro h
      unfold ChannelBase.try_pop ChannelBase.locked_dequeue at h
      rcases hx : s.first with _ | ⟨x, rest⟩
      · rw [hx] at h
        by_cases htx : s.tx_count = 0
        · exact ⟨rfl, htx⟩
        · simp [htx] at h
      · rw [hx] at h
        simp at h
    · rintro ⟨hx, htx⟩
      simp [ChannelBase.try_pop, ChannelBase.locked_dequeue, hx, htx]

theorem amst_C4_try_pop_trichotomy_witness :
    ChannelBase.try_pop
        { first := ([] : List Nat), lastNull := true, tx_count := 2,
          rx_count := 1 }
      = Except.ok (none,
          { first := ([] : List Nat), lastNull := true, tx_count := 2,
            rx_count := 1 }) :=
  (amst_C4_try_pop_trichotomy
      { first := ([] : List Nat), lastNull := true, tx_count := 2,
        rx_count := 1 }).2.1 rfl (by decide)

/-- C5: once `pop`'s wait predicate (`first_ || tx_count_ == 0`) holds,
`locked_dequeue` never takes the no-value branch: it throws `RecvError`
exactly when the queue is empty and the sender count is 0, and otherwise
returns the head element — so `assert(node)` in `pop` always holds and
`pop` never returns without a value. -/
theorem amst_C5_pop_assert_holds {α : Type} (s : ChannelBase α)
    (h : s.popReady) :
    (∀ s', s.locked_dequeue ≠ Except.ok (none, s')) ∧
    (s.locked_dequeue = Except.error ChannelError.recvError ↔
        s.first = [] ∧ s.tx_count = 0) ∧
    (s.first ≠ [] →
        ∃ x s', s.locked_dequeue = Except.ok (some x, s') ∧
          s.first.head? = some x) := by
  refine ⟨?_, ?_, ?_⟩
  · intro s' hcontra
    unfold ChannelBase.locked_dequeue at hcontra
    rcases hx : s.first with _ | ⟨x, rest⟩
    · rw [hx] at hcontra
      rcases h with hne | htx
      · exact hne hx
      · simp [htx] at hcontra
    · rw [hx] at hcontra
      simp at hcontra
  · constructor
    · intro hcontra
      unfold ChannelBase.locked_dequeue at hcontra
      rcases hx : s.first with _ | ⟨x, rest⟩
      · rw [hx] at hcontra
        by_cases htx : s.tx_count = 0
        · exact ⟨rfl, htx⟩
        · simp [htx] at hcontra
      · rw [hx] at hcontra
        simp at hcontra
    · rintro ⟨hx, htx⟩
      simp [ChannelBase.locked_dequeue, hx, htx]
  · intro hne
    rcases hx : s.first with _ | ⟨x, rest⟩
    · exact absurd hx hne
    · refine ⟨x, { s with first := rest, lastNull := rest.isEmpty || s.lastNull }, ?_, ?_⟩
      · simp [ChannelBase.locked_dequeue, hx]
      · simp [hx]

theorem amst_C5_pop_assert_holds_witness :
    ∃ x s', ChannelBase.locked_dequeue
        { first := [9], lastNull := false, tx_count := 1, rx_count := 1 }
      = Except.ok (some x, s') ∧
      ([9] : List Nat).head? = some x :=
  (amst_C5_pop_assert_holds
      { first := [9], lastNull := false, tx_count := 1, rx_count := 1 }
      (Or.inl (by decide))).2.2 (by decide)

/-! ### Preservation of the list-shape invariant -/

theorem listShapeInv_applyOp {α : Type} (s : ChannelBase α) (op : Op α)
    (h : listShapeInv s) : listShapeInv (applyOp s op) := by
  cases op with
  | push a =>
      by_cases hrx : s.rx_count = 0
      · simpa [applyOp, ChannelBase.push, hrx] using h
      · simp only [applyOp, ChannelBase.push, hrx, if_false]
        by_cases hl : s.lastNull = true <;>
          simp [listShapeInv, hl]
  | tryPop =>
      rcases hx : s.first with _ | ⟨x, rest⟩
      · by_cases htx : s.tx_count = 0 <;>
          simpa [applyOp, ChannelBase.locked_dequeue, hx, htx] using h
      · rcases rest with _ | ⟨y, t⟩
        · simp [applyOp, ChannelBase.locked_dequeue, hx, listShapeInv]
        · have hl : s.lastNull = false := by
            rcases Bool.eq_false_or_eq_true s.lastNull with h' | h'
            · exact absurd (h.mp h') (by simp [hx])
            · exact h'
          simp [applyOp, ChannelBase.locked_dequeue, hx, listShapeInv, hl]
  | pop =>
      rcases hx : s.first with _ | ⟨x, rest⟩
      · by_cases htx : s.tx_count = 0 <;>
          simpa [applyOp, ChannelBase.locked_dequeue, hx, htx] using h
      · rcases rest with _ | ⟨y, t⟩
        · simp [applyOp, ChannelBase.locked_dequeue, hx, listShapeInv]
        · have hl : s.lastNull = false := by
            rcases Bool.eq_false_or_eq_true s.lastNull with h' | h'
            · exact absurd (h.mp h') (by simp [hx])
            · exact h'
          simp [applyOp, ChannelBase.locked_dequeue, hx, listShapeInv, hl]
  | connectTx => exact h
  | connectRx => exact h
  | disconnectTx => exact h
  | disconnectRx => exact h

theorem listShapeInv_run {α : Type} (s : ChannelBase α) (ops : List (Op α))
    (h : listShapeInv s) : listShapeInv (run s ops) := by
  induction ops generalizing s with
  | nil => exact h
  | cons op rest ih => exact ih _ (listShapeInv_applyOp s op h)

/-- C6: list-shape invariant — in every state reachable from the fresh
channel by any sequence of push, try_pop, pop, connect and disconnect
operations, `last_` is null exactly when the queue is empty.  (`first_`
is null exactly when the queue is empty by the representation of the
chain, so `first_` is null iff `last_` is null as well.) -/
theorem amst_C6_list_shape_invariant {α : Type} (ops : List (Op α)) :
    listShapeInv (run (channelInit α) ops) :=
  listShapeInv_run _ _ (by simp [listShapeInv, channelInit])

theorem amst_C6_list_shape_invariant_witness :
    listShapeInv (run (channelInit Nat)
      [Op.push 5, Op.push 10, Op.tryPop, Op.disconnectTx, Op.pop]) :=
  amst_C6_list_shape_invariant _

/-! ### Trace decomposition and count-frame lemmas -/

theorem run_append {α : Type} (s : ChannelBase α) (l1 l2 : List (Op α)) :
    run s (l1 ++ l2) = run (run s l1) l2 := by
  induction l1 generalizing s with
  | nil => rfl
  | cons op rest ih => exact ih (applyOp s op)

theorem ValidFrom_append {α : Type} (s : ChannelBase α) (l1 l2 : List (Op α)) :
    ValidFrom s (l1 ++ l2) ↔ ValidFrom s l1 ∧ ValidFrom (run s l1) l2 := by
  induction l1 generalizing s with
  | nil => simp [ValidFrom, run]
  | cons op rest ih => simp [ValidFrom, run, ih, and_assoc]

theorem tx_count_applyOp_queue {α : Type} (s : ChannelBase α) (op : Op α)
    (h1 : op ≠ Op.connectTx) (h2 : op ≠ Op.disconnectTx) :
    (applyOp s op).tx_count = s.tx_count := by
  cases op with
  | push a =>
      by_cases hrx : s.rx_count = 0 <;> simp [applyOp, ChannelBase.push, hrx]
  | tryPop =>
      rcases hx : s.first with _ | ⟨x, rest⟩
      · by_cases htx : s.tx_count = 0 <;>
          simp [applyOp, ChannelBase.locked_dequeue, hx, htx]
      · simp [applyOp, ChannelBase.locked_dequeue, hx]
  | pop =>
      rcases hx : s.first with _ | ⟨x, rest⟩
      · by_cases htx : s.tx_count = 0 <;>
          simp [applyOp, ChannelBase.locked_dequeue, hx, htx]
      · simp [applyOp, ChannelBase.locked_dequeue, hx]
  | connectTx => exact absurd rfl h1
  | connectRx => simp [applyOp, ChannelBase.connect_rx]
  | disconnectTx => exact absurd rfl h2
  | disconnectRx => simp [applyOp, ChannelBase.disconnect_rx]

theorem rx_count_applyOp_queue {α : Type} (s : ChannelBase α) (op : Op α)
    (h1 : op ≠ Op.connectRx) (h2 : op ≠ Op.disconnectRx) :
    (applyOp s op).rx_count = s.rx_count := by
  cases op with
  | push a =>
      by_cases hrx : s.rx_count = 0 <;> simp [applyOp, ChannelBase.push, hrx]
  | tryPop =>
      rcases hx : s.first with _ | ⟨x, rest⟩
      · by_cases htx : s.tx_count = 0 <;>
          simp [applyOp, ChannelBase.locked_dequeue, hx, htx]
      · simp [applyOp, ChannelBase.locked_dequeue, hx]
  | pop =>
      rcases hx : s.first with _ | ⟨x, rest⟩
      · by_cases htx : s.tx_count = 0 <;>
          simp [applyOp, ChannelBase.locked_dequeue, hx, htx]
      · simp [applyOp, ChannelBase.locked_dequeue, hx]
  | connectTx => simp [applyOp, ChannelBase.connect_tx]
  | connectRx => exact absurd rfl h1
  | disconnectTx => simp [applyOp, ChannelBase.disconnect_tx]
  | disconnectRx => exact absurd rfl h2

theorem tx_zero_stable {α : Type} (s : ChannelBase α) (ops : List (Op α))
    (hv : ValidFrom s ops) (h0 : s.tx_count = 0) :
    (run s ops).tx_count = 0 := by
  induction ops generalizing s with
  | nil => exact h0
  | cons op rest ih =>
      obtain ⟨hop, hrest⟩ := hv
      cases op with
      | connectTx => exact absurd h0 (by simp [validOp] at hop; omega)
      | disconnectTx => exact absurd h0 (by simp [validOp] at hop; omega)
      | push a =>
          exact ih _ hrest
            ((tx_count_applyOp_queue s _ (by simp) (by simp)).trans h0)
      | tryPop =>
          exact ih _ hrest
            ((tx_count_applyOp_queue s _ (by simp) (by simp)).trans h0)
      | pop =>
          exact ih _ hrest
            ((tx_count_applyOp_queue s _ (by simp) (by simp)).trans h0)
      | connectRx =>
          exact ih _ hrest
            ((tx_count_applyOp_queue s _ (by simp) (by simp)).trans h0)
      | disconnectRx =>
          exact ih _ hrest
            ((tx_count_applyOp_queue s _ (by simp) (by simp)).trans h0)

theorem rx_zero_stable {α : Type} (s : ChannelBase α) (ops : List (Op α))
    (hv : ValidFrom s ops) (h0 : s.rx_count = 0) :
    (run s ops).rx_count = 0 := by
  induction ops generalizing s with
  | nil => exact h0
  | cons op rest ih =>
      obtain ⟨hop, hrest⟩ := hv
      cases op with
      | connectRx => exact absurd h0 (by simp [validOp] at hop; omega)
      | disconnectRx => exact absurd h0 (by simp [validOp] at hop; omega)
      | push a =>
          exact ih _ hrest
            ((rx_count_applyOp_queue s _ (by simp) (by simp)).trans h0)
      | tryPop =>
          exact ih _ hrest
            ((rx_count_applyOp_queue s _ (by simp) (by simp)).trans h0)
      | pop =>
          exact ih _ hrest
            ((rx_count_applyOp_queue s _ (by simp) (by simp)).trans h0)
      | connectTx =>
          exact ih _ hrest
            ((rx_count_applyOp_queue s _ (by simp) (by simp)).trans h0)
      | disconnectTx =>
          exact ih _ hrest
            ((rx_count_applyOp_queue s _ (by simp) (by simp)).trans h0)

/-- C9: zero is terminal — along any assert-respecting trace from the
fresh channel (the `assert(count > 0)` preconditions of
`connect_*`/`disconnect_*` hold at every step, as they do when every
clone and drop goes through a live handle), once the sender count or the
receiver count is 0 at some prefix it is 0 at every longer prefix, so
each count reaches 0 at most once and never increases afterward; both
counts are non-negative throughout (they are naturals, as `std::size_t`
is unsigned). -/
theorem amst_C9_zero_terminal {α : Type} (ops : List (Op α))
    (hv : ValidFrom (channelInit α) ops) (i j : Nat) (hij : i ≤ j) :
    ((run (channelInit α) (ops.take i)).tx_count = 0 →
        (run (channelInit α) (ops.take j)).tx_count = 0) ∧
    ((run (channelInit α) (ops.take i)).rx_count = 0 →
        (run (channelInit α) (ops.take j)).rx_count = 0) ∧
    0 ≤ (run (channelInit α) (ops.take j)).tx_count ∧
    0 ≤ (run (channelInit α) (ops.take j)).rx_count := by
  have hsplit : ops.take j = ops.take i ++ (ops.drop i).take (j - i) := by
    rw [← List.take_add]
    congr 1
    omega
  have hvj : ValidFrom (channelInit α) (ops.take j) := by
    have hfull : ops.take j ++ ops.drop j = ops := List.take_append_drop j ops
    have := (ValidFrom_append (channelInit α) (ops.take j) (ops.drop j)).mp
      (by rw [hfull]; exact hv)
    exact this.1
  have hmid : ValidFrom (run (channelInit α) (ops.take i))
      ((ops.drop i).take (j - i)) := by
    have := (ValidFrom_append (channelInit α) (ops.take i)
      ((ops.drop i).take (j - i))).mp (by rw [← hsplit]; exact hvj)
    exact this.2
  have hrun : run (channelInit α) (ops.take j)
      = run (run (channelInit α) (ops.take i)) ((ops.drop i).take (j - i)) := by
    rw [hsplit, run_append]
  refine ⟨?_, ?_, Nat.zero_le _, Nat.zero_le _⟩
  · intro h0
    rw [hrun]
    exact tx_zero_stable _ _ hmid h0
  · intro h0
    rw [hrun]
    exact rx_zero_stable _ _ hmid h0

theorem amst_C9_zero_terminal_witness :
    (run (channelInit Nat) ([Op.disconnectTx, Op.tryPop].take 2)).tx_count
      = 0 :=
  (amst_C9_zero_terminal [Op.disconnectTx, Op.tryPop] (by decide) 1 2
    (by decide)).1 (by decide)

/-! ### Repeated clones and drops, for the refcount claim -/

theorem run_replicate_connectTx {α : Type} (k : Nat) (s : ChannelBase α)
    (h : s.tx_count + k < size_t_mod) :
    (run s (List.replicate k Op.connectTx)).tx_count = s.tx_count + k := by
  induction k generalizing s with
  | zero => rfl
  | succ n ih =>
      have happ : (applyOp s Op.connectTx).tx_count = s.tx_count + 1 := by
        simp only [applyOp, ChannelBase.connect_tx]
        exact size_t_inc_eq (by omega)
      rw [List.replicate_succ]
      have hrun : run s (Op.connectTx :: List.replicate n Op.connectTx)
          = run (applyOp s Op.connectTx) (List.replicate n Op.connectTx) := rfl
      rw [hrun, ih (applyOp s Op.connectTx) (by rw [happ]; omega), happ]
      omega

theorem run_replicate_disconnectTx {α : Type} (k : Nat) (s : ChannelBase α)
    (hk : k ≤ s.tx_count) (hs : s.tx_count < size_t_mod) :
    (run s (List.replicate k Op.disconnectTx)).tx_count = s.tx_count - k := by
  induction k generalizing s with
  | zero => rfl
  | succ n ih =>
      have happ : (applyOp s Op.disconnectTx).tx_count = s.tx_count - 1 := by
        simp only [applyOp, ChannelBase.disconnect_tx]
        exact size_t_dec_eq (by omega) hs
      rw [List.replicate_succ]
      have hrun : run s (Op.disconnectTx :: List.replicate n Op.disconnectTx)
          = run (applyOp s Op.disconnectTx) (List.replicate n Op.disconnectTx)
          := rfl
      rw [hrun, ih (applyOp s Op.disconnectTx) (by rw [happ]; omega)
        (by rw [happ]; omega), happ]
      omega

/-- C7 counterexample: the claim says "cloning a handle N times and then
dropping N−1 copies leaves the count ≥ 1, and dropping the Nth copy
brings the count to exactly 0".  At N = 1 this means: one `connect_tx`
then one `disconnect_tx` should end at sender count 0 — but the fresh
channel starts at 1, so the trace ends at 1, not 0 (the original handle
is still live).  The trace respects every `assert`. -/
theorem amst_C7_refcount_counterexample :
    ValidFrom (channelInit Nat) [Op.connectTx, Op.disconnectTx] ∧
    (run (channelInit Nat) [Op.connectTx, Op.disconnectTx]).tx_count = 1 ∧
    ¬ (run (channelInit Nat) [Op.connectTx, Op.disconnectTx]).tx_count = 0 := by
  decide

/-- C7 (amended): the factory creates the channel with sender count 1 and
receiver count 1; every clone (`connect_tx`/`connect_rx`) increments the
matching count by exactly 1 and every drop (`disconnect_tx`/
`disconnect_rx`) decrements it by exactly 1 (counts below the `size_t`
wrap bound, drops on live handles).  Hence cloning a handle N times and
then dropping N−1 copies leaves the count at 2 (≥ 1, channel Open);
dropping the Nth copy brings the count to exactly 1, and dropping the
original handle then brings it to exactly 0. -/
theorem amst_C7_refcount_amended {α : Type} (s : ChannelBase α) (N : Nat)
    (hN : 0 < N) (hNm : 1 + N < size_t_mod)
    (htx0 : 0 < s.tx_count) (htxm : s.tx_count + 1 < size_t_mod)
    (hrx0 : 0 < s.rx_count) (hrxm : s.rx_count + 1 < size_t_mod) :
    (channelInit α).tx_count = 1 ∧ (channelInit α).rx_count = 1 ∧
    (s.connect_tx).tx_count = s.tx_count + 1 ∧
    (s.connect_rx).rx_count = s.rx_count + 1 ∧
    (s.disconnect_tx).tx_count + 1 = s.tx_count ∧
    (s.disconnect_rx).rx_count + 1 = s.rx_count ∧
    (run (channelInit α) (List.replicate N Op.connectTx)).tx_count = 1 + N ∧
    (run (run (channelInit α) (List.replicate N Op.connectTx))
        (List.replicate (N - 1) Op.disconnectTx)).tx_count = 2 ∧
    ((run (run (channelInit α) (List.replicate N Op.connectTx))
        (List.replicate (N - 1) Op.disconnectTx)).disconnect_tx).tx_count
      = 1 ∧
    (((run (run (channelInit α) (List.replicate N Op.connectTx))
        (List.replicate (N - 1) Op.disconnectTx)).disconnect_tx).disconnect_tx).tx_count
      = 0 := by
  have hA : (run (channelInit α) (List.replicate N Op.connectTx)).tx_count
      = 1 + N :=
    run_replicate_connectTx N (channelInit α) hNm
  have hB : (run (run (channelInit α) (List.replicate N Op.connectTx))
      (List.replicate (N - 1) Op.disconnectTx)).tx_count = 2 := by
    rw [run_replicate_disconnectTx (N - 1) _ (by rw [hA]; omega)
      (by rw [hA]; omega), hA]
    omega
  have hC : ((run (run (channelInit α) (List.replicate N Op.connectTx))
      (List.replicate (N - 1) Op.disconnectTx)).disconnect_tx).tx_count
      = 1 := by
    simp only [ChannelBase.disconnect_tx]
    rw [hB, size_t_dec_eq (by omega) (by omega)]
  have hD : (((run (run (channelInit α) (List.replicate N Op.connectTx))
      (List.replicate (N - 1) Op.disconnectTx)).disconnect_tx).disconnect_tx).tx_count
      = 0 := by
    simp only [ChannelBase.disconnect_tx]
    rw [hB]
    decide
  have hdec : (s.disconnect_tx).tx_count + 1 = s.tx_count := by
    rw [show (s.disconnect_tx).tx_count = s.tx_count - 1 from
      size_t_dec_eq htx0 (by omega)]
    omega
  have hdecr : (s.disconnect_rx).rx_count + 1 = s.rx_count := by
    rw [show (s.disconnect_rx).rx_count = s.rx_count - 1 from
      size_t_dec_eq hrx0 (by omega)]
    omega
  exact ⟨rfl, rfl, size_t_inc_eq htxm, size_t_inc_eq hrxm, hdec, hdecr,
    hA, hB, hC, hD⟩

theorem amst_C7_refcount_amended_witness :
    (channelInit Nat).tx_count = 1 :=
  (amst_C7_refcount_amended (channelInit Nat) 1 (by decide) (by decide)
    (by decide) (by decide) (by decide) (by decide)).1

/-! ### Handle assignment -/

theorem Sender_assign_ne {α : Type} (w : Nat → ChannelBase α) (ds ss : Sender)
    (hne : ds.channel ≠ ss.channel) :
    (Sender.assign w ds ss).1 ds.channel = (w ds.channel).disconnect_tx ∧
    (Sender.assign w ds ss).1 ss.channel = (w ss.channel).connect_tx ∧
    (Sender.assign w ds ss).2 = { channel := ss.channel } ∧
    ∀ c, c ≠ ds.channel → c ≠ ss.channel →
      (Sender.assign w ds ss).1 c = w c := by
  refine ⟨?_, ?_, ?_, ?_⟩
  · simp only [Sender.assign, if_neg hne]
    rw [Function.update_noteq hne, Function.update_same]
  · simp only [Sender.assign, if_neg hne]
    rw [Function.update_same, Function.update_noteq (Ne.symm hne)]
  · simp only [Sender.assign, if_neg hne]
  · intro c hc1 hc2
    simp only [Sender.assign, if_neg hne]
    rw [Function.update_noteq hc2, Function.update_noteq hc1]

theorem Receiver_assign_ne {α : Type} (w : Nat → ChannelBase α)
    (dr sr : Receiver) (hne : dr.channel ≠ sr.channel) :
    (Receiver.assign w dr sr).1 dr.channel = (w dr.channel).disconnect_rx ∧
    (Receiver.assign w dr sr).1 sr.channel = (w sr.channel).connect_rx ∧
    (Receiver.assign w dr sr).2 = { channel := sr.channel } ∧
    ∀ c, c ≠ dr.channel → c ≠ sr.channel →
      (Receiver.assign w dr sr).1 c = w c := by
  refine ⟨?_, ?_, ?_, ?_⟩
  · simp only [Receiver.assign, if_neg hne]
    rw [Function.update_noteq hne, Function.update_same]
  · simp only [Receiver.assign, if_neg hne]
    rw [Function.update_same, Function.update_noteq (Ne.symm hne)]
  · simp only [Receiver.assign, if_neg hne]
  · intro c hc1 hc2
    simp only [Receiver.assign, if_neg hne]
    rw [Function.update_noteq hc2, Function.update_noteq hc1]

/-- C8: handle assignment — assigning a Sender (symmetrically a Receiver)
whose target is the same channel is a complete no-op (identity guard);
assigning one that targets a different channel decrements the old
channel's matching live count by exactly 1 and increments the new
channel's matching live count by exactly 1 (counts of live handles, below
the `size_t` wrap bound), leaving the queues, tail flags and opposite
counts of both channels, and every other channel, unchanged. -/
theorem amst_C8_handle_assignment {α : Type} (w : Nat → ChannelBase α)
    (ds ss : Sender) (dr sr : Receiver)
    (h1 : 0 < (w ds.channel).tx_count)
    (h2 : (w ds.channel).tx_count < size_t_mod)
    (h3 : (w ss.channel).tx_count + 1 < size_t_mod)
    (h4 : 0 < (w dr.channel).rx_count)
    (h5 : (w dr.channel).rx_count < size_t_mod)
    (h6 : (w sr.channel).rx_count + 1 < size_t_mod) :
    (ds.channel = ss.channel → Sender.assign w ds ss = (w, ds)) ∧
    (ds.channel ≠ ss.channel →
        (Sender.assign w ds ss).2 = { channel := ss.channel } ∧
        ((Sender.assign w ds ss).1 ds.channel).tx_count + 1
          = (w ds.channel).tx_count ∧
        ((Sender.assign w ds ss).1 ss.channel).tx_count
          = (w ss.channel).tx_count + 1 ∧
        ((Sender.assign w ds ss).1 ds.channel).rx_count
          = (w ds.channel).rx_count ∧
        ((Sender.assign w ds ss).1 ds.channel).first = (w ds.channel).first ∧
        ((Sender.assign w ds ss).1 ds.channel).lastNull
          = (w ds.channel).lastNull ∧
        ((Sender.assign w ds ss).1 ss.channel).rx_count
          = (w ss.channel).rx_count ∧
        ((Sender.assign w ds ss).1 ss.channel).first = (w ss.channel).first ∧
        ((Sender.assign w ds ss).1 ss.channel).lastNull
          = (w ss.channel).lastNull ∧
        (∀ c, c ≠ ds.channel → c ≠ ss.channel →
            (Sender.assign w ds ss).1 c = w c)) ∧
    (dr.channel = sr.channel → Receiver.assign w dr sr = (w, dr)) ∧
    (dr.channel ≠ sr.channel →
        (Receiver.assign w dr sr).2 = { channel := sr.channel } ∧
        ((Receiver.assign w dr sr).1 dr.channel).rx_count + 1
          = (w dr.channel).rx_count ∧
        ((Receiver.assign w dr sr).1 sr.channel).rx_count
          = (w sr.channel).rx_count + 1 ∧
        ((Receiver.assign w dr sr).1 dr.channel).tx_count
          = (w dr.channel).tx_count ∧
        ((Receiver.assign w dr sr).1 dr.channel).first = (w dr.channel).first ∧
        ((Receiver.assign w dr sr).1 dr.channel).lastNull
          = (w dr.channel).lastNull ∧
        ((Receiver.assign w dr sr).1 sr.channel).tx_count
          = (w sr.channel).tx_count ∧
        ((Receiver.assign w dr sr).1 sr.channel).first = (w sr.channel).first ∧
        ((Receiver.assign w dr sr).1 sr.channel).lastNull
          = (w sr.channel).lastNull ∧
        (∀ c, c ≠ dr.channel → c ≠ sr.channel →
            (Receiver.assign w dr sr).1 c = w c)) := by
  refine ⟨?_, ?_, ?_, ?_⟩
  · intro he
    simp [Sender.assign, he]
  · intro hne
    obtain ⟨e1, e2, e3, e4⟩ := Sender_assign_ne w ds ss hne
    refine ⟨e3, ?_, ?_, ?_, ?_, ?_, ?_, ?_, ?_, e4⟩
    · rw [e1, show ((w ds.channel).disconnect_tx).tx_count
          = (w ds.channel).tx_count - 1 from size_t_dec_eq h1 h2]
      omega
    · rw [e2]
      exact size_t_inc_eq h3
    · rw [e1]
      rfl
    · rw [e1]
      rfl
    · rw [e1]
      rfl
    · rw [e2]
      rfl
    · rw [e2]
      rfl
    · rw [e2]
      rfl
  · intro he
    simp [Receiver.assign, he]
  · intro hne
    obtain ⟨e1, e2, e3, e4⟩ := Receiver_assign_ne w dr sr hne
    refine ⟨e3, ?_, ?_, ?_, ?_, ?_, ?_, ?_, ?_, e4⟩
    · rw [e1, show ((w dr.channel).disconnect_rx).rx_count
          = (w dr.channel).rx_count - 1 from size_t_dec_eq h4 h5]
      omega
    · rw [e2]
      exact size_t_inc_eq h6
    · rw [e1]
      rfl
    · rw [e1]
      rfl
    · rw [e1]
      rfl
    · rw [e2]
      rfl
    · rw [e2]
      rfl
    · rw [e2]
      rfl

theorem amst_C8_handle_assignment_witness :
    Sender.assign (fun _ => channelInit Nat) { channel := 0 } { channel := 0 }
      = (fun _ => channelInit Nat, ({ channel := 0 } : Sender)) :=
  (amst_C8_handle_assignment (fun _ => channelInit Nat)
    { channel := 0 } { channel := 0 } { channel := 0 } { channel := 1 }
    (by decide) (by decide) (by decide) (by decide) (by decide)
    (by decide)).1 rfl

/-- C10: frame separation between queue and counts — `push` and both
dequeues (`try_pop`, and `pop` via `locked_dequeue`) never change the
sender or receiver count, whether they succeed or throw; and
`connect_tx`/`connect_rx`/`disconnect_tx`/`disconnect_rx` never change
the queue contents, the tail flag, or the opposite count. -/
theorem amst_C10_frame_separation {α : Type} (s : ChannelBase α) (a : α) :
    (∀ s', s.push a = Except.ok s' →
        s'.tx_count = s.tx_count ∧ s'.rx_count = s.rx_count) ∧
    ((applyOp s (Op.push a)).tx_count = s.tx_count ∧
        (applyOp s (Op.push a)).rx_count = s.rx_count) ∧
    (∀ r s', s.locked_dequeue = Except.ok (r, s') →
        s'.tx_count = s.tx_count ∧ s'.rx_count = s.rx_count) ∧
    ((applyOp s Op.tryPop).tx_count = s.tx_count ∧
        (applyOp s Op.tryPop).rx_count = s.rx_count) ∧
    ((applyOp s Op.pop).tx_count = s.tx_count ∧
        (applyOp s Op.pop).rx_count = s.rx_count) ∧
    (s.connect_tx.first = s.first ∧ s.connect_tx.lastNull = s.lastNull ∧
        s.connect_tx.rx_count = s.rx_count) ∧
    (s.connect_rx.first = s.first ∧ s.connect_rx.lastNull = s.lastNull ∧
        s.connect_rx.tx_count = s.tx_count) ∧
    (s.disconnect_tx.first = s.first ∧ s.disconnect_tx.lastNull = s.lastNull ∧
        s.disconnect_tx.rx_count = s.rx_count) ∧
    (s.disconnect_rx.first = s.first ∧ s.disconnect_rx.lastNull = s.lastNull ∧
        s.disconnect_rx.tx_count = s.tx_count) := by
  refine ⟨?_, ⟨tx_count_applyOp_queue s _ (by simp) (by simp),
      rx_count_applyOp_queue s _ (by simp) (by simp)⟩, ?_,
    ⟨tx_count_applyOp_queue s _ (by simp) (by simp),
      rx_count_applyOp_queue s _ (by simp) (by simp)⟩,
    ⟨tx_count_applyOp_queue s _ (by simp) (by simp),
      rx_count_applyOp_queue s _ (by simp) (by simp)⟩,
    ⟨rfl, rfl, rfl⟩, ⟨rfl, rfl, rfl⟩, ⟨rfl, rfl, rfl⟩, ⟨rfl, rfl, rfl⟩⟩
  · intro s' h
    unfold ChannelBase.push at h
    split at h
    · simp at h
    · cases h
      exact ⟨rfl, rfl⟩
  · intro r s' h
    rcases hx : s.first with _ | ⟨x, rest⟩
    · simp only [ChannelBase.locked_dequeue, hx] at h
      by_cases htx : s.tx_count = 0
      · rw [if_pos htx] at h
        exact absurd h (by simp)
      · rw [if_neg htx] at h
        simp only [Except.ok.injEq, Prod.mk.injEq] at h
        obtain ⟨h1, h2⟩ := h
        subst h2
        exact ⟨rfl, rfl⟩
    · simp only [ChannelBase.locked_dequeue, hx] at h
      simp only [Except.ok.injEq, Prod.mk.injEq] at h
      obtain ⟨h1, h2⟩ := h
      subst h2
      exact ⟨rfl, rfl⟩

theorem amst_C10_frame_separation_witness :
    (applyOp { first := [1], lastNull := false, tx_count := 3, rx_count := 4 }
        (Op.push (2 : Nat))).tx_count = 3 ∧
    (applyOp { first := [1], lastNull := false, tx_count := 3, rx_count := 4 }
        (Op.push (2 : Nat))).rx_count = 4 :=
  (amst_C10_frame_separation
    { first := [1], lastNull := false, tx_count := 3, rx_count := 4 } 2).2.1

end Amst
